import Mathlib

/-!
Verification of the EagerForm form-validation library (v1.0.5 sources,
`src/index.js`, `src/rules/remote.js`, `src/locales/en.js`).

Shallow embedding: JavaScript strings are lists of UTF-16 code units
(`List Nat`, each unit < 2^16) where surrogate behaviour matters, and plain
`String` elsewhere; the DOM, timers and XMLHttpRequest are modelled as
explicit state threaded through small-step trace semantics; promises are
identified by numeric ids and settlement is an explicit event.
-/

namespace EagerForm

/-! ## UTF-16 code-unit classification (for `unicodeStrLen`) -/

/-- High surrogate range U+D800–U+DBFF. -/
def isHighSurrogate (c : Nat) : Bool := 0xD800 ≤ c && c ≤ 0xDBFF

/-- Low surrogate range U+DC00–U+DFFF. -/
def isLowSurrogate (c : Nat) : Bool := 0xDC00 ≤ c && c ≤ 0xDFFF

/-- The character class `[\0-퟿-￿]` of the `unicodeStrLen`
regex: any BMP code unit that is not a surrogate. -/
def isBasicBmp (c : Nat) : Bool := c ≤ 0xD7FF || (0xE000 ≤ c && c ≤ 0xFFFF)

/-- One global-matching scan of the `unicodeStrLen` regex
`[\0-퟿-￿]|[\uD800-\uDBFF][\uDC00-\uDFFF]|[\uD800-\uDBFF](?![\uDC00-\uDFFF])|(?:[^\uD800-\uDBFF]|^)[\uDC00-\uDFFF]`
over the code units, counting matches.  Alternatives are tried in order at
each position; on failure the engine advances one unit.  `atStart` tracks
whether the current position is index 0 (for the `^` anchor; the regex has
only the `g` flag). -/
def regexMatchCount (atStart : Bool) : List Nat → Nat
  | [] => 0
  | [c] =>
    if isBasicBmp c then 1
    else if isHighSurrogate c then 1
    -- a lone low surrogate matches only through the `^` branch
    else if atStart then 1
    else 0
  | c :: d :: rest =>
    if isBasicBmp c then
      -- first alternative: single non-surrogate BMP unit
      1 + regexMatchCount false (d :: rest)
    else if isHighSurrogate c then
      if isLowSurrogate d then
        -- second alternative: surrogate pair, consumes two units
        1 + regexMatchCount false rest
      else
        -- third alternative: lone high surrogate (negative lookahead holds)
        1 + regexMatchCount false (d :: rest)
    else
      -- c is a low surrogate: only the fourth alternative can apply here
      if atStart then
        -- `^` branch consumes just the low surrogate
        1 + regexMatchCount false (d :: rest)
      else if isLowSurrogate d then
        -- `[^\uD800-\uDBFF]` consumes c itself, then the following low
        -- surrogate: one match spanning two units
        1 + regexMatchCount false rest
      else
        -- no match at this position; the engine advances one unit
        regexMatchCount false (d :: rest)

/-- `EagerForm.unicodeStrLen` from `src/index.js`: returns 0 for the empty
(falsy) string, otherwise the number of matches of the surrogate-aware
regex. -/
def unicodeStrLen (s : List Nat) : Nat :=
  if s = [] then 0 else regexMatchCount true s

/-- Unicode code point count of a UTF-16 code-unit sequence: a high
surrogate directly followed by a low surrogate forms one code point; every
other unit (including a lone surrogate) is one code point, as JavaScript
string iteration counts them. -/
def codePointCount : List Nat → Nat
  | [] => 0
  | [_] => 1
  | c :: d :: rest =>
    if isHighSurrogate c && isLowSurrogate d then
      1 + codePointCount rest
    else
      1 + codePointCount (d :: rest)

/-- Well-formed UTF-16: every high surrogate is immediately followed by a
low surrogate, and every low surrogate is immediately preceded by a high
surrogate (so surrogates only occur as pairs). -/
def wellFormedUtf16 : List Nat → Bool
  | [] => true
  | c :: rest =>
    if isHighSurrogate c then
      match rest with
      | d :: rest2 => isLowSurrogate d && wellFormedUtf16 rest2
      | [] => false
    else if isLowSurrogate c then
      false
    else
      wellFormedUtf16 rest

lemma notSurrogate_isBasicBmp (c : Nat) (hc : c < 0x10000)
    (hh : isHighSurrogate c = false) (hl : isLowSurrogate c = false) :
    isBasicBmp c = true := by
  simp only [isHighSurrogate, isLowSurrogate, isBasicBmp,
    Bool.and_eq_false_iff, Bool.and_eq_true, Bool.or_eq_true,
    decide_eq_false_iff_not, decide_eq_true_eq, not_le] at *
  omega

/-- Code units bounded by 2^16 (true of every JavaScript string). -/
def codeUnits (s : List Nat) : Prop := ∀ c ∈ s, c < 0x10000

lemma regexMatchCount_wellFormed :
    ∀ s : List Nat, codeUnits s → wellFormedUtf16 s = true →
      ∀ b : Bool, regexMatchCount b s = codePointCount s
  | [], _, _, _ => by simp [regexMatchCount, codePointCount]
  | [c], hu, h, b => by
    have hc : c < 0x10000 := hu c (by simp)
    simp only [wellFormedUtf16] at h
    by_cases hh : isHighSurrogate c = true
    · simp [hh] at h
    · by_cases hl : isLowSurrogate c = true
      · simp [hh, hl] at h
      · have hb := notSurrogate_isBasicBmp c hc
          (by simpa using hh) (by simpa using hl)
        simp [regexMatchCount, codePointCount, hb]
  | c :: d :: rest, hu, h, b => by
    have hc : c < 0x10000 := hu c (by simp)
    have hd : d < 0x10000 := hu d (by simp)
    have hrestu : codeUnits rest := fun x hx => hu x (by simp [hx])
    simp only [wellFormedUtf16] at h
    by_cases hh : isHighSurrogate c = true
    · rw [if_pos hh] at h
      have hdl : isLowSurrogate d = true := by
        cases hld : isLowSurrogate d
        · simp [hld] at h
        · rfl
      have hrest : wellFormedUtf16 rest = true := by
        cases hr : wellFormedUtf16 rest
        · simp [hdl, hr] at h
        · rfl
      have hb : isBasicBmp c = false := by
        simp only [isHighSurrogate, isBasicBmp, Bool.and_eq_true,
          Bool.or_eq_true, decide_eq_true_eq] at *
        simp only [Bool.or_eq_false_iff, Bool.and_eq_false_iff,
          decide_eq_false_iff_not, not_le]
        omega
      have ih := regexMatchCount_wellFormed rest hrestu hrest false
      simp [regexMatchCount, codePointCount, hb, hh, hdl, ih]
    · by_cases hl : isLowSurrogate c = true
      · simp [hh, hl] at h
      · have hb := notSurrogate_isBasicBmp c hc
          (by simpa using hh) (by simpa using hl)
        have hdu : codeUnits (d :: rest) := fun x hx => hu x (by
          simp only [List.mem_cons] at hx ⊢
          tauto)
        have hrest : wellFormedUtf16 (d :: rest) = true := by
          simpa [hh, hl] using h
        have ih := regexMatchCount_wellFormed (d :: rest) hdu hrest false
        have hpair : (isHighSurrogate c && isLowSurrogate d) = false := by
          simp [hh]
        simp [regexMatchCount, codePointCount, hb, hpair, ih]

/-! ## `getFirstError` (C5) -/

/-- A form control as far as `getFirstError` observes it: whether the
platform `:invalid` selector currently matches it, its `novalidate`
attribute and its `name` attribute (`none` = attribute absent). -/
structure Control where
  invalid : Bool
  novalidateAttr : Option String
  nameAttr : Option String
deriving DecidableEq, Repr

/-- JavaScript truthiness of `element.getAttribute('name')`: `null` (absent)
and the empty string are falsy. -/
def attrTruthy : Option String → Bool
  | none => false
  | some v => v ≠ ""

/-- `querySelector('input:invalid,select:invalid,textarea:invalid')`: index
of the first control in document order that matches `:invalid`. -/
def firstInvalidIdx : List Control → Option Nat
  | [] => none
  | el :: rest =>
    if el.invalid then some 0 else (firstInvalidIdx rest).map (· + 1)

/-- The suppress-marker test of `getFirstError` and `validateField`:
`element.hasAttribute('novalidate') && element.getAttribute('novalidate') !== 'false'`. -/
def suppressActive (el : Control) : Bool :=
  match el.novalidateAttr with
  | none => false
  | some v => v ≠ "false"

/-- `EagerForm.getFirstError` from `src/index.js`: query the first
`:invalid` control; return `none` if there is none, or if that control has
a `novalidate` attribute whose value is not the literal `"false"`, or if it
has no (truthy) `name` attribute while `validateWithoutName` is off;
otherwise return it.  Suppressed or unnamed invalid controls are *not*
skipped over. -/
def getFirstError (fields : List Control) (validateWithoutName : Bool) :
    Option Nat :=
  match firstInvalidIdx fields with
  | none => none
  | some i =>
    match fields[i]? with
    | none => none
    | some el =>
      if suppressActive el then
        none
      else if !validateWithoutName && !attrTruthy el.nameAttr then
        none
      else
        some i

/-- The eligibility filter the claim describes: invalid, suppress marker
not active, named (or `validateWithoutName`). -/
def eligibleError (el : Control) (validateWithoutName : Bool) : Bool :=
  el.invalid
    && !suppressActive el
    && (validateWithoutName || attrTruthy el.nameAttr)

/-- Modelled from the claim's words (not the source): the first control in
document order that is invalid *and* eligible, skipping suppressed and
unnamed invalid controls. -/
def getFirstErrorExcluding (fields : List Control)
    (validateWithoutName : Bool) : Option Nat :=
  match fields with
  | [] => none
  | el :: rest =>
    if eligibleError el validateWithoutName then some 0
    else (getFirstErrorExcluding rest validateWithoutName).map (· + 1)

lemma firstInvalidIdx_iff :
    ∀ (fields : List Control) (i : Nat),
      firstInvalidIdx fields = some i ↔
        (∃ el, fields[i]? = some el ∧ el.invalid = true) ∧
          ∀ j, j < i → ∀ el, fields[j]? = some el → el.invalid = false
  | [], i => by simp [firstInvalidIdx]
  | el :: rest, i => by
    by_cases hinv : el.invalid = true
    · simp only [firstInvalidIdx, hinv, if_pos]
      constructor
      · rintro h
        obtain rfl : i = 0 := by simpa using h.symm
        exact ⟨⟨el, by simp, hinv⟩, fun j hj => by omega⟩
      · rintro ⟨_, hmin⟩
        rcases i with _ | i
        · rfl
        · have h0 := hmin 0 (by omega) el (by simp)
          rw [hinv] at h0
          simp at h0
    · simp only [firstInvalidIdx, hinv, if_false, Bool.false_eq_true]
      rcases i with _ | i
      · constructor
        · intro h
          rcases hf : firstInvalidIdx rest with _ | k <;> rw [hf] at h <;>
            simp at h
        · rintro ⟨⟨el', hel', hinv'⟩, _⟩
          obtain rfl : el = el' := by simpa using hel'
          exact absurd hinv' hinv
      · constructor
        · intro h
          have hf' : firstInvalidIdx rest = some i := by
            rcases hf : firstInvalidIdx rest with _ | k
            · rw [hf] at h
              simp at h
            · have h2 : i = k := by
                rw [hf] at h
                simp at h
                omega
              subst h2
              rfl
          have ih := (firstInvalidIdx_iff rest i).mp hf'
          refine ⟨?_, ?_⟩
          · obtain ⟨el', hel', hinv'⟩ := ih.1
            exact ⟨el', by simpa using hel', hinv'⟩
          · intro j hj el' hel'
            rcases j with _ | j
            · obtain rfl : el = el' := by simpa using hel'
              simpa using hinv
            · exact ih.2 j (by omega) el' (by simpa using hel')
        · rintro ⟨⟨el', hel', hinv'⟩, hmin⟩
          have hf : firstInvalidIdx rest = some i := by
            apply (firstInvalidIdx_iff rest i).mpr
            refine ⟨⟨el', by simpa using hel', hinv'⟩, ?_⟩
            intro j hj el2 hel2
            exact hmin (j + 1) (by omega) el2 (by simpa using hel2)
          simp [hf]

lemma eligibleError_invalid {el : Control} {vwn : Bool}
    (h : eligibleError el vwn = true) : el.invalid = true := by
  simp only [eligibleError, Bool.and_eq_true] at h
  exact h.1.1

/-! ## Claim C9 -/

/-- C9 counterexample: `unicodeStrLen` does not return the Unicode code
point count for *every* string.  The two-unit string `"a"` followed by a
lone low surrogate U+DC00 has two code points (JavaScript string iteration
counts a lone surrogate as one code point), yet the regex merges the pair
into one match, so `unicodeStrLen` returns 1. -/
theorem c9_counterexample :
    unicodeStrLen [0x61, 0xDC00] = 1 ∧ codePointCount [0x61, 0xDC00] = 2 ∧
      unicodeStrLen [0x61, 0xDC00] ≠ codePointCount [0x61, 0xDC00] := by
  refine ⟨by decide, by decide, by decide⟩

/-- C9 (amended): for every *well-formed* UTF-16 string (no lone
surrogates; true of any value made of whole characters), `unicodeStrLen`
returns the Unicode code point count rather than the UTF-16 code-unit
count; in particular a single surrogate-pair character counts as 1,
not 2. -/
theorem c9_unicodeStrLen_codePoints (s : List Nat) (hu : codeUnits s)
    (hw : wellFormedUtf16 s = true) : unicodeStrLen s = codePointCount s := by
  unfold unicodeStrLen
  rcases s with _ | ⟨c, rest⟩
  · simp [codePointCount]
  · rw [if_neg (by simp)]
    exact regexMatchCount_wellFormed _ hu hw true

/-- C9 witness: the single emoji U+1F600, encoded as the surrogate pair
`0xD83D 0xDE00` (two UTF-16 code units), is well formed and has
`unicodeStrLen` 1, not 2. -/
theorem c9_witness :
    codeUnits [0xD83D, 0xDE00] ∧ wellFormedUtf16 [0xD83D, 0xDE00] = true ∧
      unicodeStrLen [0xD83D, 0xDE00] = codePointCount [0xD83D, 0xDE00] ∧
      unicodeStrLen [0xD83D, 0xDE00] = 1 :=
  ⟨by unfold codeUnits; decide, by decide,
    c9_unicodeStrLen_codePoints [0xD83D, 0xDE00]
      (by unfold codeUnits; decide) (by decide),
    by decide⟩

/-! ## Claim C5 -/

/-- C5 counterexample: with a suppressed invalid control first and an
eligible invalid control second, the claim's reading (exclude suppressed
fields from consideration) picks the second control, but `getFirstError`
returns `none`: it queries the first `:invalid` control and, finding it
suppressed, gives up instead of skipping it. -/
theorem c5_counterexample :
    getFirstError
        [⟨true, some "true", some "a"⟩, ⟨true, none, some "b"⟩] false = none ∧
      getFirstErrorExcluding
        [⟨true, some "true", some "a"⟩, ⟨true, none, some "b"⟩] false =
          some 1 ∧
      (none : Option Nat) ≠ some 1 := by
  refine ⟨by decide, by decide, by decide⟩

/-- C5 (amended): `getFirstError` returns index `i` exactly when `i` is the
first control in document order matching `:invalid` (no earlier control is
invalid) *and* that very control is eligible — unsuppressed and named (or
`validateWithoutName` set).  When the first invalid control is suppressed
or unnamed, the result is `none`; later eligible invalid controls are never
considered. -/
theorem c5_getFirstError_characterization (fields : List Control)
    (vwn : Bool) (i : Nat) :
    getFirstError fields vwn = some i ↔
      ∃ el, fields[i]? = some el ∧ eligibleError el vwn = true ∧
        ∀ j, j < i → ∀ el2, fields[j]? = some el2 → el2.invalid = false := by
  rcases hf : firstInvalidIdx fields with _ | k
  · simp only [getFirstError, hf]
    constructor
    · intro h
      cases h
    · rintro ⟨el, hel, helig, hmin⟩
      have hfi : firstInvalidIdx fields = some i :=
        (firstInvalidIdx_iff fields i).mpr
          ⟨⟨el, hel, eligibleError_invalid helig⟩, hmin⟩
      rw [hf] at hfi
      cases hfi
  · obtain ⟨⟨el, hel, hinv⟩, hmin⟩ := (firstInvalidIdx_iff fields k).mp hf
    simp only [getFirstError, hf, hel]
    by_cases hsup : suppressActive el = true
    · simp only [hsup, if_true]
      constructor
      · intro h
        cases h
      · rintro ⟨el2, hel2, helig2, hmin2⟩
        have hfi : firstInvalidIdx fields = some i :=
          (firstInvalidIdx_iff fields i).mpr
            ⟨⟨el2, hel2, eligibleError_invalid helig2⟩, hmin2⟩
        rw [hf] at hfi
        obtain rfl : k = i := Option.some.inj hfi
        rw [hel] at hel2
        obtain rfl : el = el2 := Option.some.inj hel2
        simp [eligibleError, hsup] at helig2
    · rw [if_neg hsup]
      by_cases hnm : (!vwn && !attrTruthy el.nameAttr) = true
      · simp only [hnm, if_true]
        constructor
        · intro h
          cases h
        · rintro ⟨el2, hel2, helig2, hmin2⟩
          have hfi : firstInvalidIdx fields = some i :=
            (firstInvalidIdx_iff fields i).mpr
              ⟨⟨el2, hel2, eligibleError_invalid helig2⟩, hmin2⟩
          rw [hf] at hfi
          obtain rfl : k = i := Option.some.inj hfi
          rw [hel] at hel2
          obtain rfl : el = el2 := Option.some.inj hel2
          simp only [eligibleError, Bool.and_eq_true] at helig2
          rcases helig2 with ⟨-, hname⟩
          cases hvv : vwn <;> cases haa : attrTruthy el.nameAttr <;>
            rw [hvv, haa] at hname hnm <;> simp_all
      · rw [if_neg hnm]
        have helig : eligibleError el vwn = true := by
          simp only [eligibleError, Bool.and_eq_true]
          refine ⟨⟨hinv, by simp [hsup]⟩, ?_⟩
          rcases hv : vwn with _ | _
          · rcases ha : attrTruthy el.nameAttr with _ | _
            · exact absurd (by simp [hv, ha]) hnm
            · simp
          · simp
        constructor
        · intro h
          obtain rfl : k = i := Option.some.inj h
          exact ⟨el, hel, helig, hmin⟩
        · rintro ⟨el2, hel2, helig2, hmin2⟩
          have hfi : firstInvalidIdx fields = some i :=
            (firstInvalidIdx_iff fields i).mpr
              ⟨⟨el2, hel2, eligibleError_invalid helig2⟩, hmin2⟩
          rw [hf] at hfi
          exact hfi

/-- C5 witness: applying the characterization to a concrete form whose
second control is the first invalid one and is eligible. -/
theorem c5_witness :
    getFirstError
      [⟨false, none, some "a"⟩, ⟨true, none, some "b"⟩] false = some 1 :=
  (c5_getFirstError_characterization
      [⟨false, none, some "a"⟩, ⟨true, none, some "b"⟩] false 1).mpr
    ⟨⟨true, none, some "b"⟩, by decide, by decide, by
      intro j hj el2 hel2
      interval_cases j
      · simp only [List.getElem?_cons_zero, Option.some.injEq] at hel2
        rw [← hel2]⟩

/-! ## Message templating and the value map (C7) -/

/-- A JavaScript value as it can appear in the `data` map of `getMessage`:
`undefined`, `null`, or a string. -/
inductive JsVal where
  | undef : JsVal
  | null : JsVal
  | str : String → JsVal
deriving DecidableEq, Repr

/-- The coercion `String.replace` applies to the value returned by the
replacement callback: `undefined` renders as `"undefined"`, `null` as
`"null"`. -/
def JsVal.coerceToString : JsVal → String
  | .undef => "undefined"
  | .null => "null"
  | .str s => s

/-- A message template, pre-tokenized: the regex
`/\{(\s*?[\w.]+\s*?)}/gm` of `strtpl` splits the text into literal runs and
`{identifier}` placeholders. -/
inductive TplTok where
  | lit : String → TplTok
  | hole : String → TplTok
deriving DecidableEq, Repr

/-- `EagerForm.strtpl` from `src/index.js`: each placeholder whose
identifier is a key of the replacement object (`contents in replacements`,
true even when the stored value is `undefined`) is replaced by the stored
value coerced to a string; every other placeholder is replaced by the empty
string. -/
def strtpl (text : List TplTok) (repl : List (String × JsVal)) : String :=
  (text.map (fun t =>
    match t with
    | .lit s => s
    | .hole n =>
      match repl.lookup n with
      | some v => v.coerceToString
      | none => "")).foldl (· ++ ·) ""

/-- `getAttribute(k)`: the attribute's string value, or `null` when the
attribute is absent. -/
def getAttr (attrs : List (String × String)) (k : String) : JsVal :=
  match attrs.lookup k with
  | some v => .str v
  | none => .null

/-- `translateNumbers` from `src/index.js`: `undefined` and `null` pass
through unchanged; otherwise each key of the locale's `numbers` table is
replaced globally in the stringified value.  The bundled `en` locale has no
`numbers` table, so `translate('numbers', {})` yields the empty table and
the function is the identity on strings. -/
def translateNumbers (numbers : List (String × String)) : JsVal → JsVal
  | .undef => .undef
  | .null => .null
  | .str s => .str (numbers.foldl (fun acc p => acc.replace p.1 p.2) s)

/-- The `data` value map `getMessage` builds in v1.0.5 (`src/index.js`
lines 776–795).  The object literal defines only `count`, `maxlength`,
`minlength` and `step`; the following `switch` on the element type then
assigns `data.min = this.translateNumbers(data.min)` (for number/range) or
`data.min = new Date(data.min).toLocaleString(locale)` (for
date/datetime-local) — in both cases *reading* `data.min`/`data.max`, which
were never assigned, so the argument is `undefined`:
`translateNumbers(undefined)` returns `undefined`, and
`new Date(undefined).toLocaleString(...)` renders `"Invalid Date"`.  The
`min`/`max` attributes of the element are never read. -/
def getMessageData (numbers : List (String × String)) (type : String)
    (value : List Nat) (attrs : List (String × String)) :
    List (String × JsVal) :=
  let base : List (String × JsVal) :=
    [("count", translateNumbers numbers (.str (toString (unicodeStrLen value)))),
     ("maxlength", translateNumbers numbers (getAttr attrs "maxlength")),
     ("minlength", translateNumbers numbers (getAttr attrs "minlength")),
     ("step", translateNumbers numbers (getAttr attrs "step"))]
  if type = "number" || type = "range" then
    base ++ [("min", translateNumbers numbers .undef),
             ("max", translateNumbers numbers .undef)]
  else if type = "date" || type = "datetime-local" then
    base ++ [("min", .str "Invalid Date"), ("max", .str "Invalid Date")]
  else
    base

/-- Modelled from the claim's words (and matching the v1.0.2 source, which
initializes `min`/`max` from the element's attributes): the value map
contains `count` (Unicode code point length of the value) plus the
`maxlength`, `minlength`, `step`, `min` and `max` attribute values, numeric
entries rendered through the locale digit table.  (Date formatting of
`min`/`max` for date types is irrelevant to the numeric failing input and
elided.) -/
def getMessageDataClaim (numbers : List (String × String))
    (value : List Nat) (attrs : List (String × String)) :
    List (String × JsVal) :=
  [("count", translateNumbers numbers (.str (toString (codePointCount value)))),
   ("maxlength", translateNumbers numbers (getAttr attrs "maxlength")),
   ("minlength", translateNumbers numbers (getAttr attrs "minlength")),
   ("step", translateNumbers numbers (getAttr attrs "step")),
   ("min", translateNumbers numbers (getAttr attrs "min")),
   ("max", translateNumbers numbers (getAttr attrs "max"))]

/-- The `rangeUnderflow` template of the bundled `en` locale,
`"Please enter a value that is no less than {min}."`, tokenized. -/
def rangeUnderflowTpl : List TplTok :=
  [.lit "Please enter a value that is no less than ", .hole "min", .lit "."]

/-- C7: on a number-type field with `min="5"`, v1.0.5 never reads the `min`
attribute when building the value map: the `min` entry is
`translateNumbers(undefined) = undefined`, so the rendered `rangeUnderflow`
message contains `undefined` where the claim (and v1.0.2) put the
locale-formatted attribute value `5`. -/
theorem c7_min_never_substituted :
    strtpl rangeUnderflowTpl (getMessageData [] "number" [0x33] [("min", "5")])
        = "Please enter a value that is no less than undefined." ∧
      (getMessageData [] "number" [0x33] [("min", "5")]).lookup "min"
        = some JsVal.undef ∧
      strtpl rangeUnderflowTpl
          (getMessageDataClaim [] [0x33] [("min", "5")])
        = "Please enter a value that is no less than 5." := by
  refine ⟨by decide, by decide, by decide⟩

/-! ## Message text resolution (C8) -/

/-- `s.toLowerCase()`, character-wise (ASCII is all that the input types
and validity kinds contain). -/
def jsToLowerCase (s : String) : String :=
  String.mk (s.toList.map Char.toLower)

/-- `validityType.replace(/[A-Z]/g, '-$&').toLowerCase()`: each uppercase
letter becomes a dash followed by its lowercase form. -/
def kebabKind (kind : String) : String :=
  String.mk
    ((kind.toList.map
      (fun c => if c.isUpper then ['-', c.toLower] else [c])).flatten)

/-- `type.charAt(0).toUpperCase() + type.slice(1)`. -/
def capitalizeFirst (s : String) : String :=
  match s.toList with
  | [] => ""
  | c :: cs => String.mk (c.toUpper :: cs)

/-- The catalog key combining the validity kind with the capitalized input
type, e.g. `valueMissing` + `checkbox` → `valueMissingCheckbox`. -/
def specificKey (kind type : String) : String :=
  kind ++ capitalizeFirst type

/-- `translate(key)` from `src/index.js`: returns the catalog entry if it
is truthy (a catalog value of `""` is falsy and behaves as missing),
otherwise the fallback `null`, modelled as `none`. -/
def translateLookup (catalog : List (String × String)) (key : String) :
    Option String :=
  match catalog.lookup key with
  | some v => if v = "" then none else some v
  | none => none

/-- The validity kinds whose `switch` case in `getMessage` consults the
type-suffixed catalog key before the generic one. -/
def suffixedKinds : List String :=
  ["valueMissing", "typeMismatch", "rangeOverflow", "rangeUnderflow",
   "badInput"]

/-- The catalog phase of `getMessage`: for the five kinds listed in the
`switch`, try the type-suffixed key then the generic key; for every other
kind, only the generic key. -/
def catalogMessage (catalog : List (String × String)) (kind type : String) :
    Option String :=
  if kind ∈ suffixedKinds then
    match translateLookup catalog (specificKey kind type) with
    | some v => some v
    | none => translateLookup catalog kind
  else
    translateLookup catalog kind

/-- The inline-attribute phase of `getMessage`: the per-kind override
attribute is read if *present* (its value, even when empty, pre-empts the
global attribute), else the global override attribute. -/
def inlineOverride (attrs : List (String × String)) (kind : String) :
    Option String :=
  match attrs.lookup ("data-eager-" ++ kebabKind kind ++ "-error") with
  | some v => some v
  | none => attrs.lookup "data-eager-error"

/-- The text-resolution phase of `EagerForm.getMessage` (`src/index.js`
lines 724–774), before placeholder substitution: `customError` returns
`element.validationMessage` at once; otherwise the inline overrides are
consulted, a falsy (empty) result falling through to the catalog phase
(`if (!msg)`); a `null` final result falls back to the platform message.
`type` is lowercased as in the source. -/
def resolveMessageText (catalog : List (String × String))
    (attrs : List (String × String)) (kind type validationMessage : String) :
    String :=
  if kind = "customError" then validationMessage
  else
    match
      (match inlineOverride attrs kind with
        | some v =>
          if v = "" then catalogMessage catalog kind (jsToLowerCase type)
          else some v
        | none => catalogMessage catalog kind (jsToLowerCase type)) with
    | some v => v
    | none => validationMessage

/-- Modelled from the claim's words (not the source): for every validity
kind, resolve in the order inline per-kind attribute > inline global
attribute > type-suffixed catalog key > generic catalog key > platform
message. -/
def resolveMessageTextClaim (catalog : List (String × String))
    (attrs : List (String × String)) (kind type validationMessage : String) :
    String :=
  match attrs.lookup ("data-eager-" ++ kebabKind kind ++ "-error") with
  | some v => v
  | none =>
    match attrs.lookup "data-eager-error" with
    | some v => v
    | none =>
      match translateLookup catalog (specificKey kind (jsToLowerCase type)) with
      | some v => v
      | none =>
        match translateLookup catalog kind with
        | some v => v
        | none => validationMessage

/-- The amended resolution order: as the claim states it, except that the
type-suffixed catalog key is consulted only for the five kinds of the
`switch` (`valueMissing`, `typeMismatch`, `rangeOverflow`,
`rangeUnderflow`, `badInput`); all other kinds use the generic key
directly. -/
def resolveMessageTextAmended (catalog : List (String × String))
    (attrs : List (String × String)) (kind type validationMessage : String) :
    String :=
  match attrs.lookup ("data-eager-" ++ kebabKind kind ++ "-error") with
  | some v => v
  | none =>
    match attrs.lookup "data-eager-error" with
    | some v => v
    | none =>
      match
        (if kind ∈ suffixedKinds then
          translateLookup catalog (specificKey kind (jsToLowerCase type))
        else none) with
      | some v => v
      | none =>
        match translateLookup catalog kind with
        | some v => v
        | none => validationMessage

/-- C8 counterexample: for kind `tooLong` (not one of the five `switch`
cases) with type `textarea`, the code never consults the type-suffixed
catalog key `tooLongTextarea`, returning the generic entry, while the
claim's precedence picks the suffixed entry. -/
theorem c8_counterexample :
    resolveMessageText [("tooLongTextarea", "SPEC"), ("tooLong", "GEN")] []
        "tooLong" "textarea" "PLATFORM" = "GEN" ∧
      resolveMessageTextClaim
          [("tooLongTextarea", "SPEC"), ("tooLong", "GEN")] []
          "tooLong" "textarea" "PLATFORM" = "SPEC" ∧
      ("GEN" : String) ≠ "SPEC" := by
  refine ⟨by decide, by decide, by decide⟩

/-- C8 (amended): for every non-`customError` kind, provided any present
inline override attribute is non-empty (the empty string is falsy in the
source and falls through to the catalog), `getMessage` resolves text in
the order inline per-kind attribute > inline global attribute >
type-suffixed catalog key (only for `valueMissing`, `typeMismatch`,
`rangeOverflow`, `rangeUnderflow`, `badInput`) > generic catalog key >
platform message. -/
theorem c8_precedence_amended (catalog attrs : List (String × String))
    (kind type validationMessage : String) (hck : kind ≠ "customError")
    (h1 : ∀ v, attrs.lookup ("data-eager-" ++ kebabKind kind ++ "-error")
      = some v → v ≠ "")
    (h2 : ∀ v, attrs.lookup "data-eager-error" = some v → v ≠ "") :
    resolveMessageText catalog attrs kind type validationMessage =
      resolveMessageTextAmended catalog attrs kind type validationMessage := by
  unfold resolveMessageText resolveMessageTextAmended inlineOverride
    catalogMessage
  rw [if_neg hck]
  rcases ha : attrs.lookup ("data-eager-" ++ kebabKind kind ++ "-error")
    with _ | v
  · rcases hb : attrs.lookup "data-eager-error" with _ | w
    · simp only [ha, hb]
      rcases hsp : translateLookup catalog (specificKey kind (jsToLowerCase type))
          with _ | u <;>
        rcases hgen : translateLookup catalog kind with _ | z <;>
          by_cases hk : kind ∈ suffixedKinds <;>
            simp [hk, hsp, hgen]
    · simp only [ha, hb, if_neg (h2 w hb)]
  · simp only [ha, if_neg (h1 v ha)]

/-- C8 witness: with the bundled `en` catalog, kind `valueMissing` on a
checkbox resolves through the type-suffixed key, matching the amended
precedence. -/
theorem c8_witness :
    resolveMessageText
        [("valueMissing", "Please fill out this field."),
         ("valueMissingCheckbox", "Please check this box if you want to proceed.")]
        [] "valueMissing" "checkbox" "PLATFORM" =
      resolveMessageTextAmended
        [("valueMissing", "Please fill out this field."),
         ("valueMissingCheckbox", "Please check this box if you want to proceed.")]
        [] "valueMissing" "checkbox" "PLATFORM" ∧
      resolveMessageText
        [("valueMissing", "Please fill out this field."),
         ("valueMissingCheckbox", "Please check this box if you want to proceed.")]
        [] "valueMissing" "checkbox" "PLATFORM" =
          "Please check this box if you want to proceed." :=
  ⟨c8_precedence_amended _ _ _ _ _ (by decide)
      (fun v h => by cases h) (fun v h => by cases h),
    by decide⟩

/-! ## Debounce scheduling in `handleInput` (C2) -/

/-- Trailing-edge fire times of one shared `lodash.debounce` wrapper for a
monotone sequence of call times: the wrapper's timer resets while calls
arrive within `wait` of the previous one, and the wrapped function fires
`wait` after the last call of each burst.  `last` is the time of the most
recent call. -/
def debounceBursts (wait : Nat) (last : Nat) : List Nat → List Nat
  | [] => [last + wait]
  | t :: ts =>
    if t < last + wait then
      -- within the window: the timer resets, no fire yet
      debounceBursts wait t ts
    else
      -- quiet period elapsed: the pending invocation fired at last + wait
      (last + wait) :: debounceBursts wait t ts

/-- Fire times produced by calling a single shared debounced wrapper at
each of the given (monotone) times. -/
def lodashDebounceFires (wait : Nat) : List Nat → List Nat
  | [] => []
  | t :: ts => debounceBursts wait t ts

/-- What `handleInput` in `src/index.js` actually does when the resolved
debounce value is positive: `callback = debounce(callback, bounce)` runs
*inside* the handler, so every event constructs a fresh debounced wrapper
(with its own private timer) and calls it exactly once.  No wrapper ever
sees a second call, so no timer is ever reset; each event fires its own
invocation `wait` after itself. -/
def handleInputDebounceFires (wait : Nat) (events : List Nat) : List Nat :=
  (events.map (fun t => lodashDebounceFires wait [t])).flatten

/-- C2: two trigger events 50 ms apart on a field whose resolved debounce
is 100 ms.  A shared trailing-edge debouncer (the claim) fires exactly once
at t = 150; the per-event wrappers of `handleInput` fire twice, at t = 100
and t = 150 — the validation pipeline runs once per event, merely
delayed. -/
theorem c2_debounce_not_coalesced :
    handleInputDebounceFires 100 [0, 50] = [100, 150] ∧
      (handleInputDebounceFires 100 [0, 50]).length = 2 ∧
      lodashDebounceFires 100 [0, 50] = [150] ∧
      (lodashDebounceFires 100 [0, 50]).length = 1 := by
  refine ⟨by decide, by decide, by decide, by decide⟩

/-! ## Delay scheduling in `handleInput` (C3) -/

/-- A scheduled delayed validation: the event type it was stored under, the
field whose validation the `setTimeout` callback will run, and its fire
time. -/
structure DelayedTask where
  eventType : String
  fieldId : Nat
  fire : Nat
deriving DecidableEq, Repr

/-- `this.intervals` of an `EagerForm` instance: one slot per *event type*
(the object is keyed by `event.type` alone — `this.intervals[event.type]`),
shared by every field of the form. -/
def scheduleDelay (intervals : String → Option DelayedTask) (ev : String)
    (f now d : Nat) : String → Option DelayedTask :=
  -- clearTimeout(this.intervals[event.type]);
  -- this.intervals[event.type] = setTimeout(() => callback(event.target), delay)
  fun e => if e = ev then some ⟨ev, f, now + d⟩ else intervals e

/-- C3 counterexample: field 0 schedules a delayed validation for event
type `input` firing at t = 100; before it fires, field 1's `input` trigger
at t = 50 overwrites the same `intervals` slot after `clearTimeout`.  Field
0's pending invocation is cancelled by a different field's trigger — the
timer slot is owned by the form and event type, not by the field. -/
theorem c3_counterexample :
    scheduleDelay (fun _ => none) "input" 0 0 100 "input"
        = some ⟨"input", 0, 100⟩ ∧
      scheduleDelay (scheduleDelay (fun _ => none) "input" 0 0 100)
          "input" 1 50 100 "input" = some ⟨"input", 1, 150⟩ ∧
      (⟨"input", 1, 150⟩ : DelayedTask) ≠ ⟨"input", 0, 100⟩ := by
  refine ⟨rfl, rfl, by decide⟩

/-- C3 (amended): at most one delayed invocation is pending per
*(form, event-type)*: scheduling a delayed invocation installs the new task
(timed from its own trigger) in the event type's slot, replacing whatever
task was pending there — including a different field's — while slots of
other event types are untouched. -/
theorem c3_delay_slot_per_event_type (intervals : String → Option DelayedTask)
    (ev : String) (f now d : Nat) :
    scheduleDelay intervals ev f now d ev = some ⟨ev, f, now + d⟩ ∧
      ∀ e, e ≠ ev → scheduleDelay intervals ev f now d e = intervals e := by
  refine ⟨by simp [scheduleDelay], fun e he => by simp [scheduleDelay, he]⟩

/-- C3 witness: the amended statement applied to a concrete state — a
`change`-type slot survives an `input`-type scheduling, and the `input`
slot holds the new task. -/
theorem c3_witness :
    scheduleDelay
        (fun e => if e = "change" then some ⟨"change", 7, 40⟩ else none)
        "input" 1 50 100 "input" = some ⟨"input", 1, 150⟩ ∧
      scheduleDelay
        (fun e => if e = "change" then some ⟨"change", 7, 40⟩ else none)
        "input" 1 50 100 "change" = some ⟨"change", 7, 40⟩ :=
  ⟨(c3_delay_slot_per_event_type
      (fun e => if e = "change" then some ⟨"change", 7, 40⟩ else none)
      "input" 1 50 100).1,
    by
      rw [(c3_delay_slot_per_event_type
        (fun e => if e = "change" then some ⟨"change", 7, 40⟩ else none)
        "input" 1 50 100).2 "change" (by decide)]
      rfl⟩

/-! ## Remote rule executor (C4, C6)

`src/rules/remote.js` keeps one reusable `XMLHttpRequest` per field, stored
on the `EagerForm` instance under `__remote_request_${element.id}`.  Each
invocation returns a promise settled only by the `onload` handler installed
by that invocation.  The model tracks, per key, the request object's
`readyState` (0 unsent, 1 opened-and-sent, 4 done) and the id of the
promise whose `onload`/`onerror` closures are currently installed, plus the
flow of settled (applied), aborted and logged outcomes. -/

/-- The per-field `XMLHttpRequest` handle with the promise currently wired
to it.  `reverse` is the captured `data-eager-remote-reverse` flag. -/
structure Xhr where
  readyState : Nat
  pending : Option Nat
  reverse : Bool
deriving DecidableEq, Repr

/-- `this[name].readyState > 0 && this[name].readyState < 4`. -/
def Xhr.inFlight (x : Xhr) : Bool :=
  decide (0 < x.readyState) && decide (x.readyState < 4)

/-- State of the remote executor: the instance's request handles keyed by
`__remote_request_${element.id}`, the settled validation promises
(`(promise id, success)` — a `resolve()` or `reject(msg)` that reached the
`.then`/`.catch` handlers of `validateField`), the promise ids whose
request was aborted, and the number of transport errors logged. -/
structure RemoteState where
  handles : List (String × Xhr)
  applied : List (Nat × Bool)
  aborted : List Nat
  logged : Nat
deriving DecidableEq, Repr

/-- Replace the handle stored under `k`. -/
def updtHandles (hs : List (String × Xhr)) (k : String) (x : Xhr) :
    List (String × Xhr) :=
  (k, x) :: hs.filter (fun p => !(p.1 == k))

/-- Events of the remote executor: a rule invocation issuing a request for
a field's key with a fresh promise id, the HTTP response arriving, or a
transport-level failure. -/
inductive RemoteEvent where
  | start : String → Nat → Bool → RemoteEvent
  | respond : String → Nat → RemoteEvent
  | transportError : String → RemoteEvent
deriving DecidableEq, Repr

/-- One executor step, from `src/rules/remote.js`:

* `start key pid rev`: the handle is created lazily
  (`if (typeof this[name] == "undefined") this[name] = new XMLHttpRequest()`);
  if it is still in flight it is aborted — its wired promise joins
  `aborted` and can never settle — then `open`/`send` rewire the handle to
  the new promise (`readyState` 1).
* `respond key status`: the installed `onload` closure settles the wired
  promise with `status === 200`, inverted when `reverse`; the request is
  done (`readyState` 4).  A response can only arrive on an in-flight
  request.
* `transportError key`: the `onerror` closure only logs
  (`console.log(...)`); the wired promise is *not* settled and not
  aborted; the request is done. -/
def remoteStep (s : RemoteState) : RemoteEvent → RemoteState
  | .start key pid rev =>
    let old := (s.handles.lookup key).getD ⟨0, none, false⟩
    let ab :=
      if old.inFlight then
        match old.pending with
        | some p => s.aborted ++ [p]
        | none => s.aborted
      else s.aborted
    { s with
        handles := updtHandles s.handles key ⟨1, some pid, rev⟩,
        aborted := ab }
  | .respond key status =>
    match s.handles.lookup key with
    | some x =>
      if x.inFlight then
        match x.pending with
        | some p =>
          { s with
              applied := s.applied
                ++ [(p, if x.reverse then !(status == 200) else status == 200)],
              handles := updtHandles s.handles key
                ⟨4, x.pending, x.reverse⟩ }
        | none =>
          { s with
              handles := updtHandles s.handles key ⟨4, x.pending, x.reverse⟩ }
      else s
    | none => s
  | .transportError key =>
    match s.handles.lookup key with
    | some x =>
      if x.inFlight then
        { s with
            logged := s.logged + 1,
            handles := updtHandles s.handles key ⟨4, x.pending, x.reverse⟩ }
      else s
    | none => s

/-- Run the executor over a list of events. -/
def remoteRun (s : RemoteState) (evs : List RemoteEvent) : RemoteState :=
  evs.foldl remoteStep s

/-- The executor's initial state: no handles, nothing settled. -/
def remoteInit : RemoteState := ⟨[], [], [], 0⟩

lemma lookup_filter_ne (hs : List (String × Xhr)) (k q : String)
    (hq : ¬q = k) :
    (hs.filter (fun p => !(p.1 == k))).lookup q = hs.lookup q := by
  induction hs with
  | nil => rfl
  | cons p ps ih =>
    rcases p with ⟨a, y⟩
    by_cases ha : a = k
    · have hqk2 : (q == k) = false := beq_eq_false_iff_ne.mpr hq
      simp [List.filter_cons, ha, List.lookup, hqk2, ih]
    · rcases hqa : q == a with _ | _
      · simp [List.filter_cons, ha, List.lookup, hqa, ih]
      · simp [List.filter_cons, ha, List.lookup, hqa]

lemma updtHandles_lookup (hs : List (String × Xhr)) (k : String) (x : Xhr)
    (q : String) :
    (updtHandles hs k x).lookup q =
      if q = k then some x else hs.lookup q := by
  unfold updtHandles
  by_cases hq : q = k
  · subst hq
    simp [List.lookup]
  · have hqk : (q == k) = false := beq_eq_false_iff_ne.mpr hq
    simp [List.lookup, hqk, lookup_filter_ne hs k q hq, hq]

/-- C4: at most one remote request is outstanding per field.  First part:
two remote validations issued for the same field before the first responds
yield exactly one applied outcome — the second's — and the first request is
aborted (its promise never settles).  Second part: in any state, starting a
new request for a key whose handle is still in flight puts the in-flight
promise into the aborted set and rewires the handle, alone, to the new
promise. -/
theorem c4_remote_single_outstanding :
    (∀ (p1 p2 st : Nat) (rev1 rev2 : Bool),
      (remoteRun remoteInit
          [.start "f" p1 rev1, .start "f" p2 rev2, .respond "f" st]).aborted
            = [p1] ∧
        (remoteRun remoteInit
          [.start "f" p1 rev1, .start "f" p2 rev2, .respond "f" st]).applied
            = [(p2, if rev2 then !(st == 200) else st == 200)]) ∧
      ∀ (s : RemoteState) (key : String) (x : Xhr) (p pid : Nat)
          (rev : Bool),
        s.handles.lookup key = some x → x.inFlight = true →
          x.pending = some p →
            p ∈ (remoteStep s (.start key pid rev)).aborted ∧
              (remoteStep s (.start key pid rev)).handles.lookup key
                = some ⟨1, some pid, rev⟩ := by
  constructor
  · intro p1 p2 st rev1 rev2
    constructor <;> rfl
  · intro s key x p pid rev hl hin hp
    have hold : (s.handles.lookup key).getD ⟨0, none, false⟩ = x := by
      rw [hl]
      rfl
    constructor
    · simp only [remoteStep, hold, hin, hp, if_true]
      simp
    · simp only [remoteStep]
      rw [updtHandles_lookup]
      simp

/-- C4 witness: a request for field key `"g"` with promise 5 is in flight;
starting promise 6 aborts 5 and installs 6. -/
theorem c4_witness :
    5 ∈ (remoteStep (remoteRun remoteInit [.start "g" 5 false])
          (.start "g" 6 true)).aborted ∧
      (remoteStep (remoteRun remoteInit [.start "g" 5 false])
          (.start "g" 6 true)).handles.lookup "g"
        = some ⟨1, some 6, true⟩ :=
  c4_remote_single_outstanding.2
    (remoteRun remoteInit [.start "g" 5 false]) "g" ⟨1, some 5, false⟩ 5 6
    true (by decide) (by decide) (by decide)

/-- Promise `p` can no longer be settled: it is not among the applied
outcomes and it is not wired to any in-flight request. -/
def pidQuiescent (p : Nat) (s : RemoteState) : Prop :=
  p ∉ s.applied.map Prod.fst ∧
    ∀ key x, s.handles.lookup key = some x → x.pending = some p →
      x.inFlight = false

lemma remoteStep_quiescent (p : Nat) (s : RemoteState) (e : RemoteEvent)
    (hq : pidQuiescent p s)
    (he : ∀ key pid rev, e = .start key pid rev → pid ≠ p) :
    pidQuiescent p (remoteStep s e) := by
  obtain ⟨hap, hhd⟩ := hq
  cases e with
  | start key pid rev =>
    have hpid : pid ≠ p := he key pid rev rfl
    constructor
    · simpa only [remoteStep] using hap
    · intro key2 x2 hl2 hp2
      simp only [remoteStep] at hl2
      rw [updtHandles_lookup] at hl2
      by_cases hk : key2 = key
      · rw [if_pos hk] at hl2
        obtain rfl : (⟨1, some pid, rev⟩ : Xhr) = x2 := Option.some.inj hl2
        exact absurd (Option.some.inj hp2) hpid
      · rw [if_neg hk] at hl2
        exact hhd key2 x2 hl2 hp2
  | respond key status =>
    rcases hl : s.handles.lookup key with _ | x
    · constructor
      · simpa only [remoteStep, hl] using hap
      · intro key2 x2 hl2 hp2
        simp only [remoteStep, hl] at hl2
        exact hhd key2 x2 hl2 hp2
    · rcases hin : x.inFlight with _ | _
      · constructor
        · simp only [remoteStep, hl, hin]
          simpa using hap
        · intro key2 x2 hl2 hp2
          simp only [remoteStep, hl, hin] at hl2
          simp only [Bool.false_eq_true, if_false] at hl2
          exact hhd key2 x2 hl2 hp2
      · rcases hpx : x.pending with _ | q
        · constructor
          · simp only [remoteStep, hl, hin, hpx, if_true]
            simpa using hap
          · intro key2 x2 hl2 hp2
            by_cases hk : key2 = key
            · subst hk
              simp [remoteStep, hl, hin, hpx, updtHandles_lookup] at hl2
              subst hl2
              rfl
            · simp [remoteStep, hl, hin, hpx, updtHandles_lookup, hk] at hl2
              exact hhd key2 x2 hl2 hp2
        · have hqp : q ≠ p := by
            intro hqp
            subst hqp
            exact absurd (hhd key x hl hpx) (by simp [hin])
          constructor
          · simp only [remoteStep, hl, hin, hpx, if_true]
            simp only [List.map_append, List.map_cons, List.map_nil]
            intro hmem
            rcases List.mem_append.mp hmem with hmem | hmem
            · exact hap hmem
            · simp only [List.mem_singleton] at hmem
              exact hqp hmem.symm
          · intro key2 x2 hl2 hp2
            by_cases hk : key2 = key
            · subst hk
              simp [remoteStep, hl, hin, hpx, updtHandles_lookup] at hl2
              subst hl2
              rfl
            · simp [remoteStep, hl, hin, hpx, updtHandles_lookup, hk] at hl2
              exact hhd key2 x2 hl2 hp2
  | transportError key =>
    rcases hl : s.handles.lookup key with _ | x
    · constructor
      · simpa only [remoteStep, hl] using hap
      · intro key2 x2 hl2 hp2
        simp only [remoteStep, hl] at hl2
        exact hhd key2 x2 hl2 hp2
    · rcases hin : x.inFlight with _ | _
      · constructor
        · simp only [remoteStep, hl, hin]
          simpa using hap
        · intro key2 x2 hl2 hp2
          simp only [remoteStep, hl, hin] at hl2
          simp only [Bool.false_eq_true, if_false] at hl2
          exact hhd key2 x2 hl2 hp2
      · constructor
        · simp only [remoteStep, hl, hin, if_true]
          simpa using hap
        · intro key2 x2 hl2 hp2
          by_cases hk : key2 = key
          · subst hk
            simp [remoteStep, hl, hin, updtHandles_lookup] at hl2
            subst hl2
            rfl
          · simp [remoteStep, hl, hin, updtHandles_lookup, hk] at hl2
            exact hhd key2 x2 hl2 hp2

lemma remoteRun_quiescent (p : Nat) :
    ∀ (evs : List RemoteEvent) (s : RemoteState), pidQuiescent p s →
      (∀ key pid rev, RemoteEvent.start key pid rev ∈ evs → pid ≠ p) →
        pidQuiescent p (remoteRun s evs)
  | [], _, hq, _ => hq
  | e :: evs, s, hq, hevs =>
    remoteRun_quiescent p evs (remoteStep s e)
      (remoteStep_quiescent p s e hq
        (fun key pid rev he => hevs key pid rev (he ▸ List.mem_cons_self e evs)))
      (fun key pid rev hmem => hevs key pid rev (List.mem_cons_of_mem e hmem))

/-- C6: a transport-level failure of a remote request is only logged: the
validation promise is neither resolved nor rejected (it never joins the
applied outcomes), it is not even aborted, and — the model having no
timeout — no subsequent executor activity (with fresh promise ids) ever
settles it, so the pass produces no outcome and mutates no field state. -/
theorem c6_transport_error_only_logged (p : Nat) (rev : Bool)
    (evs : List RemoteEvent)
    (hfresh : ∀ key pid r, RemoteEvent.start key pid r ∈ evs → pid ≠ p) :
    (remoteRun remoteInit [.start "f" p rev, .transportError "f"]).applied
        = [] ∧
      (remoteRun remoteInit [.start "f" p rev, .transportError "f"]).logged
        = 1 ∧
      (remoteRun remoteInit [.start "f" p rev, .transportError "f"]).aborted
        = [] ∧
      p ∉ (remoteRun
          (remoteRun remoteInit [.start "f" p rev, .transportError "f"])
          evs).applied.map Prod.fst := by
  refine ⟨rfl, rfl, rfl, ?_⟩
  have hq : pidQuiescent p
      (remoteRun remoteInit [.start "f" p rev, .transportError "f"]) := by
    constructor
    · intro h
      have happ : (remoteRun remoteInit
          [.start "f" p rev, .transportError "f"]).applied
            = ([] : List (Nat × Bool)) := rfl
      rw [happ] at h
      simp at h
    · intro key x hl hp
      have hh : (remoteRun remoteInit
          [.start "f" p rev, .transportError "f"]).handles
            = [("f", ⟨4, some p, rev⟩)] := rfl
      rw [hh] at hl
      rcases hkf : key == "f" with _ | _
      · simp only [List.lookup, hkf] at hl
        cases hl
      · simp only [List.lookup, hkf] at hl
        obtain rfl := Option.some.inj hl
        rfl
  exact (remoteRun_quiescent p evs _ hq hfresh).1

/-- C6 witness: after promise 7's request fails at transport level, a later
remote validation (promise 99) and its response settle only promise 99;
promise 7 never settles and the failure was logged once. -/
theorem c6_witness :
    7 ∉ (remoteRun
        (remoteRun remoteInit [.start "f" 7 false, .transportError "f"])
        [.start "f" 99 false, .respond "f" 200]).applied.map Prod.fst ∧
      (remoteRun remoteInit [.start "f" 7 false, .transportError "f"]).logged
        = 1 :=
  ⟨(c6_transport_error_only_logged 7 false
      [.start "f" 99 false, .respond "f" 200]
      (fun key pid r h => by
        simp only [List.mem_cons, List.not_mem_nil, or_false] at h
        rcases h with h | h
        · injection h with h1 h2 h3
          omega
        · cases h)).2.2.2,
    (c6_transport_error_only_logged 7 false [] (fun key pid r h => by
      cases h)).2.1⟩

/-! ## Custom-rule passes and settlements (C1)

A pass over a field is a call of `validateField`; here we consider a field
with no native-constraint violations and custom rules attached.  The
synchronous part of the pass clears native errors when no custom error is
flagged, then launches the rules' promises.  Each promise's
`.then`/`.catch` handler mutates the element when the promise settles.  The
handlers close over nothing that identifies the pass — the code keeps no
generation counter — so a settlement is applied whenever it arrives. -/

/-- The visible validation state of the element: its custom validity
message, whether the invalid class is set, and the feedback text
rendered. -/
structure FieldView where
  customValidity : String
  invalidClass : Bool
  feedback : String
deriving DecidableEq, Repr

/-- `clearError`: removes the invalid class and empties the feedback
element (the custom validity is untouched). -/
def clearErrorView (v : FieldView) : FieldView :=
  ⟨v.customValidity, false, ""⟩

/-- The `.then` handler of a rule promise:
`element.setCustomValidity(''); this.clearError(element)`. -/
def applyResolve (_ : FieldView) : FieldView :=
  ⟨"", false, ""⟩

/-- The message the `.catch` handler computes: the rule's dedicated
`-error` attribute, else the global `data-eager-error` attribute, else the
stringified rejection reason (an empty reason leaves the message empty). -/
def customErrorMessage (attrs : List (String × String)) (ruleAttr err : String) :
    String :=
  match attrs.lookup (ruleAttr ++ "-error") with
  | some m => m
  | none =>
    match attrs.lookup "data-eager-error" with
    | some m => m
    | none => err

/-- The `.catch` handler: `element.setCustomValidity(msg)` then
`setError(element, 'customError')`, whose `displayError` renders
`getMessage(element, 'customError') = element.validationMessage = msg`. -/
def applyReject (msg : String) (_ : FieldView) : FieldView :=
  ⟨msg, true, msg⟩

/-- A field's bookkeeping state across passes: the visible view, the number
of passes started so far (the pass "generation" — tracked by the model
only; the source has no counter), and the passes whose rule promise has not
settled yet. -/
structure FieldMachine where
  view : FieldView
  gen : Nat
  pending : List Nat
deriving DecidableEq, Repr

/-- Settlement of a rule promise: `resolve()` or `reject(reason)`. -/
inductive RuleOutcome where
  | resolved : RuleOutcome
  | rejected : String → RuleOutcome
deriving DecidableEq, Repr

/-- Events on one field: a new validation pass starts (trigger →
`validateField`), or the rule promise launched by pass `g` settles with an
outcome. -/
inductive PassEvent where
  | startPass : PassEvent
  | settle : Nat → RuleOutcome → PassEvent
deriving DecidableEq, Repr

/-- One step, from `validateField` in `src/index.js` (field with no native
violations, one custom rule attached):

* `startPass`: if `element.validity.customError` is unset
  (`customValidity = ""`), `checkValidity()` passes and `clearError` runs;
  otherwise the custom-error flag makes the pass skip the clear.  Either
  way the rule is launched (a new pending settlement).
* `settle g o`: the promise launched by pass `g` settles.  The handler
  applies its mutation *unconditionally* — it does not compare `g` with
  anything, because no generation is recorded anywhere. -/
def passStep (attrs : List (String × String)) (ruleAttr : String)
    (m : FieldMachine) : PassEvent → FieldMachine
  | .startPass =>
    ⟨if m.view.customValidity = "" then clearErrorView m.view else m.view,
      m.gen + 1, m.pending ++ [m.gen + 1]⟩
  | .settle g o =>
    if g ∈ m.pending then
      ⟨match o with
        | .resolved => applyResolve m.view
        | .rejected err =>
          applyReject (customErrorMessage attrs ruleAttr err) m.view,
        m.gen, m.pending.erase g⟩
    else m

/-- Run a field through a list of events. -/
def passRun (attrs : List (String × String)) (ruleAttr : String)
    (m : FieldMachine) (evs : List PassEvent) : FieldMachine :=
  evs.foldl (passStep attrs ruleAttr) m

/-- A fresh field: clean view, no passes. -/
def passInit : FieldMachine := ⟨⟨"", false, ""⟩, 0, []⟩

/-- C1 counterexample: pass 1 starts, pass 2 starts, pass 2's rule resolves
(field shown valid), then pass 1's rule rejects with reason `stale`.  The
claim requires the late settlement of generation 1 to be discarded — no
mutation, final state that of generation 2.  Instead the `.catch` handler
runs unguarded: the field ends invalid showing `stale`, the outcome of
generation 1. -/
theorem c1_counterexample :
    passRun [] "data-eager-match" passInit
        [.startPass, .startPass, .settle 2 .resolved,
          .settle 1 (.rejected "stale")]
      = ⟨⟨"stale", true, "stale"⟩, 2, []⟩ ∧
      passRun [] "data-eager-match" passInit
          [.startPass, .startPass, .settle 2 .resolved]
        = ⟨⟨"", false, ""⟩, 2, [1]⟩ ∧
      (⟨"stale", true, "stale"⟩ : FieldView) ≠ ⟨"", false, ""⟩ := by
  refine ⟨by decide, by decide, by decide⟩

/-- C1 (amended): a custom-rule settlement of pass `g` is never discarded:
whenever the promise is still unsettled, its handler mutates the field's
visible state (success clears, failure marks invalid and renders the
message) regardless of how many later passes have started — `g` is not
compared with the field's current generation, so the final visible state is
that of whichever settlement arrived last. -/
theorem c1_settlement_unguarded (attrs : List (String × String))
    (ruleAttr : String) (m : FieldMachine) (g : Nat)
    (o : RuleOutcome) (hg : g ∈ m.pending) :
    (passStep attrs ruleAttr m (.settle g o)).view
        = (match o with
          | .resolved => applyResolve m.view
          | .rejected err =>
            applyReject (customErrorMessage attrs ruleAttr err) m.view) ∧
      (passStep attrs ruleAttr m (.settle g o)).gen = m.gen := by
  constructor <;> simp [passStep, hg]

/-- C1 witness: the amended statement applied to a stale settlement — the
field is at generation 2 but pass 1's rejection still overwrites the
view. -/
theorem c1_witness :
    (passStep [] "data-eager-match" ⟨⟨"", false, ""⟩, 2, [1]⟩
        (.settle 1 (.rejected "stale"))).view = ⟨"stale", true, "stale"⟩ ∧
      (1 : Nat) ≠ 2 :=
  ⟨((c1_settlement_unguarded [] "data-eager-match" ⟨⟨"", false, ""⟩, 2, [1]⟩
      1 (.rejected "stale") (by decide)).1).trans (by decide),
    by decide⟩

/-! ## Constructor singleton guard (C10) -/

/-- The form element's state observable by the constructor: the
`form.EagerForm` expando (an instance id when set), the listeners attached
to the form as `(event type, owning instance)` pairs, and the form's
`novalidate` attribute. -/
structure FormState where
  eagerFormInst : Option Nat
  listeners : List (String × Nat)
  novalidateAttr : Option String
deriving DecidableEq, Repr

/-- The constructor options relevant to `start`/`attachEvents`: the locale,
the `revalidate` event list, and the submit/reset capture flags. -/
structure CtorOptions where
  locale : String
  revalidate : List String
  captureSubmit : Bool
  captureReset : Bool
deriving DecidableEq, Repr

/-- The default options of `src/index.js` (v1.0.5). -/
def defaultCtorOptions : CtorOptions :=
  ⟨"en", ["blur", "change", "input"], true, true⟩

/-- `attachEvents`: one listener per configured revalidate event, plus the
submit and reset handlers when capture is enabled. -/
def attachEvents (o : CtorOptions) (instId : Nat) (st : FormState) :
    FormState :=
  { st with
      listeners := st.listeners
        ++ o.revalidate.map (fun e => (e, instId))
        ++ (if o.captureSubmit then [("submit", instId)] else [])
        ++ (if o.captureReset then [("reset", instId)] else []) }

/-- `start()`: attach the events and set `novalidate` on the form. -/
def start (o : CtorOptions) (instId : Nat) (st : FormState) : FormState :=
  { attachEvents o instId st with novalidateAttr := some "true" }

/-- Locales registered in `EagerForm.messages`; the module registers `en`
at load (`EagerForm.addLocale('en', enLocale)`). -/
def loadedLocales : List String := ["en"]

/-- The `EagerForm` constructor (`src/index.js` lines 124–186).  Field
initialisation writes only to the fresh instance, so it is pure with
respect to the form; the locale check throws before the singleton check;
then: if the form has no instance, `start()` runs and the instance is
installed; otherwise the existing instance is returned and the form state
is untouched. -/
def construct (locales : List String) (o : CtorOptions) (newId : Nat)
    (st : FormState) : Except String (Nat × FormState) :=
  if o.locale ∉ locales then
    .error ("The locale " ++ o.locale ++ " is not loaded.")
  else
    match st.eagerFormInst with
    | some i => .ok (i, st)
    | none =>
      .ok (newId, { start o newId st with eagerFormInst := some newId })

/-- C10: constructing an `EagerForm` on a form that already holds an
instance (with any options naming a loaded locale, the default `en`
included) returns the existing instance and leaves the form state — the
instance slot, the attached listeners, the `novalidate` attribute —
completely unchanged: `start()` does not run and no duplicate listeners
are attached. -/
theorem c10_constructor_singleton (locales : List String) (o : CtorOptions)
    (newId : Nat) (st : FormState) (i : Nat)
    (hloc : o.locale ∈ locales) (hinst : st.eagerFormInst = some i) :
    construct locales o newId st = .ok (i, st) := by
  unfold construct
  rw [if_neg (by simp [hloc]), hinst]

/-- C10 witness: a form already owning instance 1, constructed again with
the default options, yields instance 1 and the identical form state. -/
theorem c10_witness :
    construct loadedLocales defaultCtorOptions 2
        ⟨some 1, [("blur", 1), ("change", 1), ("input", 1), ("submit", 1),
          ("reset", 1)], some "true"⟩
      = .ok (1, ⟨some 1, [("blur", 1), ("change", 1), ("input", 1),
          ("submit", 1), ("reset", 1)], some "true"⟩) :=
  c10_constructor_singleton loadedLocales defaultCtorOptions 2
    ⟨some 1, [("blur", 1), ("change", 1), ("input", 1), ("submit", 1),
      ("reset", 1)], some "true"⟩ 1 (by decide) (by decide)

end EagerForm
